import Mathlib

/-!
Verification development for the pb_mcp repository (a PocketBase MCP adapter).

The TypeScript source is shallowly embedded: JavaScript objects become
structures or association lists, the process-wide client store becomes an
explicit `StoreState` threaded through the operations, thrown errors become
`Except`, and the SDK boundary (network calls, JWT expiry checks, the WHATWG
URL parser) is modelled by explicit parameters or small executable parsers.
JS string truthiness (`""` is falsy) is modelled by `truthy` below.
-/

namespace PbMcp

/-- JS `String.prototype.includes` on char lists: does `pat` occur inside? -/
def listContains (pat : List Char) : List Char → Bool
  | [] => pat.isPrefixOf []
  | c :: t => pat.isPrefixOf (c :: t) || listContains pat t

/-- JS `s.includes(pat)`. -/
def strIncludes (s pat : String) : Bool := listContains pat.data s.data

/-- JS `s.toLowerCase()` (list-based model of `String.toLower`). -/
def strToLower (s : String) : String := ⟨s.data.map Char.toLower⟩

/-- JS `s.startsWith(pre)`. -/
def strStartsWith (s pre : String) : Bool := pre.data.isPrefixOf s.data

/-- JS truthiness of an optional string: `undefined` and `""` are falsy. -/
def truthy : Option String → Bool
  | some s => s != ""
  | none => false

/-! ## Error handler (src/core/services/pocketbase/error-handler.ts) -/

/-- The fixed ten-way classification set (`enum ErrorCode`). -/
inductive ErrorCode where
  | AUTH_REQUIRED
  | AUTH_INVALID
  | AUTH_EXPIRED
  | FORBIDDEN
  | VALIDATION_ERROR
  | NOT_FOUND
  | NETWORK_ERROR
  | SERVER_ERROR
  | RATE_LIMITED
  | UNKNOWN_ERROR
  deriving DecidableEq

/-- One entry of a field-keyed error payload (`err.data[field]`): a nested
object with optional `code`/`message`, a bare string, or some other value
(number, etc.) that `extractValidationErrors` skips. -/
inductive FieldPayload where
  | objP (code : Option String) (message : Option String)
  | strP (s : String)
  | otherP
  deriving DecidableEq

/-- A field-keyed JS object payload, as enumerated by `Object.entries`. -/
abbrev ErrData := List (String × FieldPayload)

/-- The backend-originating error object as the handler inspects it: the ad
hoc properties `status`, `code`, `message`, `name`, `data`,
`response?.data`, `response?.message`. An absent `message` is modelled as
`""` (the source always reads it through `err.message || ""`). A `some`
`data` models a truthy object payload. -/
structure ErrObj where
  status : Option Int
  code : Option String
  message : String
  name : Option String
  data : Option ErrData
  responseData : Option ErrData
  responseMessage : Option String
  deriving DecidableEq

/-- `{field, code, message}` validation detail entry. -/
structure FieldValidationError where
  field : String
  code : String
  message : String
  deriving DecidableEq

/-- `isAuthError`: status 401/403, an auth-family `code`, or message
heuristics over the lowercased message. -/
def isAuthError (e : ErrObj) : Bool :=
  (e.status == some 401 || e.status == some 403)
  || (e.code == some "AUTH_REQUIRED" || e.code == some "AUTH_INVALID"
      || e.code == some "AUTH_EXPIRED" || e.code == some "FORBIDDEN")
  || (let m := strToLower e.message
      strIncludes m "unauthorized" || strIncludes m "unauthenticated"
      || strIncludes m "authentication" || strIncludes m "not authenticated"
      || strIncludes m "invalid credentials" || strIncludes m "token")

/-- `isValidationError`: a 400 status carrying a (truthy) object `data`
payload, the `VALIDATION_ERROR` code, or a `response.data` object. -/
def isValidationError (e : ErrObj) : Bool :=
  (e.status == some 400 && e.data.isSome)
  || e.code == some "VALIDATION_ERROR"
  || e.responseData.isSome

/-- `isNotFoundError`: 404 status, `NOT_FOUND` code, or message heuristics. -/
def isNotFoundError (e : ErrObj) : Bool :=
  e.status == some 404
  || e.code == some "NOT_FOUND"
  || (let m := strToLower e.message
      strIncludes m "not found" || strIncludes m "doesn\x27t exist"
      || strIncludes m "does not exist")

/-- `isNetworkError`: `NETWORK_ERROR` code, connectivity keywords in the
message, or a `TypeError` whose message mentions `fetch`. -/
def isNetworkError (e : ErrObj) : Bool :=
  e.code == some "NETWORK_ERROR"
  || (let m := strToLower e.message
      strIncludes m "network" || strIncludes m "fetch"
      || strIncludes m "econnrefused" || strIncludes m "connection refused"
      || strIncludes m "timeout" || strIncludes m "dns"
      || strIncludes m "unreachable")
  || (e.name == some "TypeError" && strIncludes (strToLower e.message) "fetch")

/-- `isRateLimitError`: 429 status, `RATE_LIMITED` code, or message
heuristics. -/
def isRateLimitError (e : ErrObj) : Bool :=
  e.status == some 429
  || e.code == some "RATE_LIMITED"
  || (let m := strToLower e.message
      strIncludes m "rate limit" || strIncludes m "too many requests")

/-- `err?.status >= 500` (comparison with an absent status is false). -/
def statusGE500 (e : ErrObj) : Bool :=
  match e.status with
  | some n => n ≥ 500
  | none => false

/-- `extractValidationErrors`: walk the entries of `err.data ||
err.response?.data || {}` collecting `{field, code, message}` rows, with
falsy-fallback defaults for `code` and `message`. -/
def extractValidationErrors (e : ErrObj) : List FieldValidationError :=
  let data := (e.data <|> e.responseData).getD []
  data.foldr (fun kv acc =>
    match kv.2 with
    | .objP c m =>
      { field := kv.1
        code := if truthy c then c.getD "" else "validation_failed"
        message := if truthy m then m.getD ""
                   else "Validation failed for field: " ++ kv.1 } :: acc
    | .strP s => { field := kv.1, code := "validation_failed", message := s } :: acc
    | .otherP => acc) []

/-- `getErrorCode`: the first-match classification chain. -/
def getErrorCode (e : ErrObj) : ErrorCode :=
  if isNetworkError e then .NETWORK_ERROR
  else if isRateLimitError e then .RATE_LIMITED
  else if isNotFoundError e then .NOT_FOUND
  else if isValidationError e then .VALIDATION_ERROR
  else if isAuthError e then
    if e.status == some 403 || e.code == some "FORBIDDEN" then .FORBIDDEN
    else if e.code == some "AUTH_EXPIRED" then .AUTH_EXPIRED
    else if (let m := strToLower e.message
             strIncludes m "not authenticated"
             || strIncludes m "authentication required") then .AUTH_REQUIRED
    else .AUTH_INVALID
  else if statusGE500 e then .SERVER_ERROR
  else .UNKNOWN_ERROR

/-- `getSuggestion`: remediation text per detected family. -/
def getSuggestion (e : ErrObj) : String :=
  if isNetworkError e then
    "Check that PocketBase is running and accessible at the configured URL."
  else if isAuthError e then
    if e.status == some 401 || e.code == some "AUTH_REQUIRED" then
      "Authentication is required. Please authenticate using authenticate_admin or authenticate_user first."
    else if e.status == some 403 || e.code == some "FORBIDDEN" then
      "You do not have permission for this operation. Check that you have the required role or permissions."
    else "Check your credentials and try authenticating again."
  else if isValidationError e then
    "Check the field values and ensure they meet the schema requirements."
  else if isNotFoundError e then
    "Verify that the resource exists and the ID or name is correct."
  else if isRateLimitError e then
    "Too many requests. Please wait before trying again."
  else "If the problem persists, check the PocketBase logs for more details."

/-- The canned per-classification message used when the original error
carries none. -/
def cannedMessage (c : ErrorCode) (dflt : String) : String :=
  match c with
  | .AUTH_REQUIRED => "Authentication is required for this operation"
  | .AUTH_INVALID => "Invalid credentials provided"
  | .AUTH_EXPIRED => "Authentication token has expired"
  | .FORBIDDEN => "You do not have permission to perform this operation"
  | .VALIDATION_ERROR => "Validation failed for the provided data"
  | .NOT_FOUND => "The requested resource was not found"
  | .NETWORK_ERROR => "Unable to connect to PocketBase server"
  | .SERVER_ERROR => "PocketBase server encountered an error"
  | .RATE_LIMITED => "Too many requests - please try again later"
  | .UNKNOWN_ERROR => dflt

/-- `getErrorMessage` on an error object: the object message if truthy, else
`response.message` if truthy, else a canned message by classification. -/
def getErrorMessage (e : ErrObj) (dflt : String := "An unexpected error occurred") : String :=
  if e.message != "" then e.message
  else if truthy e.responseMessage then e.responseMessage.getD ""
  else cannedMessage (getErrorCode e) dflt

/-- Structured `details` payload of an error envelope. -/
inductive Details where
  | fieldsD (fields : List FieldValidationError)
  | rawD (d : ErrData)
  deriving DecidableEq

/-- The normalized `{success:false, error, code, details?, suggestion}`
envelope. -/
structure ErrorResponse where
  success : Bool
  error : String
  code : ErrorCode
  details : Option Details
  suggestion : String
  deriving DecidableEq

/-- `handleError`: classify, pick the message (prefixed by the optional
context), attach validation field details or the raw payload. -/
def handleError (e : ErrObj) (context : Option String := none) : ErrorResponse :=
  let code := getErrorCode e
  let message :=
    match context with
    | some c => c ++ ": " ++ getErrorMessage e
    | none => getErrorMessage e
  let details : Option Details :=
    if code = .VALIDATION_ERROR then
      let fieldErrors := extractValidationErrors e
      if fieldErrors ≠ [] then some (.fieldsD fieldErrors) else none
    else
      match e.data with
      | some d => some (.rawD d)
      | none =>
        match e.responseData with
        | some d => some (.rawD d)
        | none => none
  { success := false
    error := message
    code := code
    details := details
    suggestion := getSuggestion e }

/-! ## Client factory (src/core/services/pocketbase/client-factory.ts) -/

/-- Process-wide environment configuration: `POCKETBASE_URL` and
`POCKETBASE_ADMIN_TOKEN`. -/
structure Config where
  pocketbaseUrl : Option String
  adminToken : Option String

/-- `DEFAULT_POCKETBASE_URL`. -/
def DEFAULT_POCKETBASE_URL : String := "http://127.0.0.1:8090"

/-- `normalizeUrl`: `url.replace(/\/+$/, "")`, i.e. strip every trailing
slash. -/
def normalizeUrl (url : String) : String :=
  ⟨(url.data.reverse.dropWhile (· = '/')).reverse⟩

/-- `getPocketBaseUrl`: explicit param (if truthy) > `POCKETBASE_URL` (if
truthy) > default, then normalized. -/
def getPocketBaseUrl (cfg : Config) (explicitUrl : Option String) : String :=
  let url :=
    if truthy explicitUrl then explicitUrl.getD ""
    else if truthy cfg.pocketbaseUrl then cfg.pocketbaseUrl.getD ""
    else DEFAULT_POCKETBASE_URL
  normalizeUrl url

/-! ## Session store and client handles (src/core/tools.ts)

A PocketBase client handle is identified by an allocation id (modelling JS
reference identity); its mutable `authStore` lives in a heap indexed by
those ids. `clientStore` is the process-wide map from normalized base URL
to handle; JS `Map.set` is modelled by prepending and `Map.get` by
first-match lookup. -/

/-- The cached identity in an auth store (`authStore.record`): the fields
the admin heuristic inspects. Absent `isAdmin` is modelled as `false`. -/
structure AuthRecord where
  collectionName : String
  isAdmin : Bool
  deriving DecidableEq

/-- The SDK `authStore` of one client handle: bearer token plus optional
cached identity. -/
structure AuthStore where
  token : String
  record : Option AuthRecord
  deriving DecidableEq

/-- A freshly constructed client's auth store (empty token, no record). -/
def emptyAuth : AuthStore := { token := "", record := none }

/-- `authStore.isValid`: the token is non-empty and not expired. JWT expiry
is outside this layer, so it is abstracted as the `tokenValid` predicate; an
empty token is never valid. -/
def isValidB (tokenValid : String → Bool) (a : AuthStore) : Bool :=
  a.token != "" && tokenValid a.token

/-- The whole process state: the `clientStore` map, the next fresh handle
id, and the heap of auth stores. -/
structure StoreState where
  store : List (String × Nat)
  nextId : Nat
  auth : Nat → AuthStore

/-- The empty state at process start. -/
def initState : StoreState := { store := [], nextId := 0, auth := fun _ => emptyAuth }

/-- `clientStore.get(url)` (first-match lookup). -/
def lookupStore (url : String) (st : StoreState) : Option Nat :=
  (st.store.find? (·.1 == url)).map (·.2)

/-- Allocate a fresh client handle whose auth store is `a`; the store map is
untouched (`new PocketBase(url)` plus optional `authStore.save`). -/
def allocClient (st : StoreState) (a : AuthStore) : Nat × StoreState :=
  (st.nextId,
   { store := st.store
     nextId := st.nextId + 1
     auth := fun i => if i = st.nextId then a else st.auth i })

/-- `pb.authStore.save(token, record)` on the handle `id`. -/
def authSave (st : StoreState) (id : Nat) (token : String) (rec : Option AuthRecord) : StoreState :=
  { st with auth := fun i => if i = id then { token := token, record := rec } else st.auth i }

/-- `pb.authStore.clear()` on the handle `id` (what `logout` does). -/
def authClear (st : StoreState) (id : Nat) : StoreState :=
  { st with auth := fun i => if i = id then emptyAuth else st.auth i }

/-- `createClient(config)`: a fresh client for the resolved URL, seeded with
the admin token if truthy, else the user token if truthy. -/
def createClient (st : StoreState) (adminToken userToken : Option String) : Nat × StoreState :=
  let a :=
    if truthy adminToken then { token := adminToken.getD "", record := none }
    else if truthy userToken then { token := userToken.getD "", record := none }
    else emptyAuth
  allocClient st a

/-- `clientStore.set(url, id)`. -/
def storeSet (st : StoreState) (url : String) (id : Nat) : StoreState :=
  { st with store := (url, id) :: st.store }

/-- `getOrCreateClient(baseUrl)`: return the stored handle for the resolved
URL, or create, store and return a fresh unauthenticated one. -/
def getOrCreateClient (cfg : Config) (baseUrl : Option String) (st : StoreState) :
    Nat × StoreState :=
  match lookupStore (getPocketBaseUrl cfg baseUrl) st with
  | some id => (id, st)
  | none =>
    ((createClient st none none).1,
     storeSet (createClient st none none).2 (getPocketBaseUrl cfg baseUrl)
       (createClient st none none).1)

/-- The tail of `getPocketBaseClient`: fall back to the environment admin
token (as a fresh transient client), or throw when none is configured. -/
def envTokenFallback (cfg : Config) (st : StoreState) : Except String (Nat × StoreState) :=
  if truthy cfg.adminToken then
    .ok (allocClient st { token := cfg.adminToken.getD "", record := none })
  else
    .error "PocketBase admin token is required. Provide it as parameter, authenticate first, or set POCKETBASE_ADMIN_TOKEN environment variable."

/-- `getPocketBaseClient(adminToken, baseUrl)`: explicit token → fresh
transient client with that token; else the stored handle if its token is
valid; else a fresh client with the environment admin token, or a thrown
error when none is configured. -/
def getPocketBaseClient (tokenValid : String → Bool) (cfg : Config)
    (adminToken baseUrl : Option String) (st : StoreState) :
    Except String (Nat × StoreState) :=
  if truthy adminToken then
    .ok (allocClient st { token := adminToken.getD "", record := none })
  else
    match lookupStore (getPocketBaseUrl cfg baseUrl) st with
    | some id =>
      if isValidB tokenValid (st.auth id) then .ok (id, st)
      else envTokenFallback cfg st
    | none => envTokenFallback cfg st

/-- The credential-resolution prelude shared by the record/user/custom
tools (e.g. `list_records` execute, tools.ts lines 516-523):
`getOrCreateClient`, then save the explicit token into it if provided, else
save the environment token if the stored auth is invalid. -/
def recordToolResolve (tokenValid : String → Bool) (cfg : Config)
    (adminToken baseUrl : Option String) (st : StoreState) : Nat × StoreState :=
  let r := getOrCreateClient cfg baseUrl st
  if truthy adminToken then
    (r.1, authSave r.2 r.1 (adminToken.getD "") none)
  else if !isValidB tokenValid (r.2.auth r.1) && truthy cfg.adminToken then
    (r.1, authSave r.2 r.1 (cfg.adminToken.getD "") none)
  else
    r

/-- The token a resolved client presents on the backend call. -/
def usedToken (st : StoreState) (id : Nat) : String := (st.auth id).token

/-- `authenticate_admin` / `authenticate_user` with `saveSession`: build a
fresh client, save the login token and identity into it, and overwrite the
store entry for the resolved URL. -/
def sessionSet (cfg : Config) (baseUrl : Option String) (token : String)
    (rec : Option AuthRecord) (st : StoreState) : StoreState :=
  storeSet (authSave (createClient st none none).2 (createClient st none none).1 token rec)
    (getPocketBaseUrl cfg baseUrl) (createClient st none none).1

/-- Well-formedness of the store map: every stored handle id was allocated
(below `nextId`) and no two entries share a handle id. -/
def StoreWF (st : StoreState) : Prop :=
  (∀ p ∈ st.store, p.2 < st.nextId) ∧ (st.store.map Prod.snd).Nodup

/-- The states reachable through the tool surface from process start. -/
inductive Reachable : StoreState → Prop where
  | init : Reachable initState
  | getOrCreate (cfg : Config) (baseUrl : Option String) {st : StoreState} :
      Reachable st → Reachable (getOrCreateClient cfg baseUrl st).2
  | save {st : StoreState} (url : String) (id : Nat) (token : String)
      (rec : Option AuthRecord) :
      Reachable st → lookupStore url st = some id →
      Reachable (authSave st id token rec)
  | clear {st : StoreState} (url : String) (id : Nat) :
      Reachable st → lookupStore url st = some id →
      Reachable (authClear st id)
  | getClient (tokenValid : String → Bool) (cfg : Config)
      (adminToken baseUrl : Option String) {st : StoreState} {id : Nat}
      {st' : StoreState} :
      Reachable st →
      getPocketBaseClient tokenValid cfg adminToken baseUrl st = .ok (id, st') →
      Reachable st'
  | recordResolve (tokenValid : String → Bool) (cfg : Config)
      (adminToken baseUrl : Option String) {st : StoreState} :
      Reachable st →
      Reachable (recordToolResolve tokenValid cfg adminToken baseUrl st).2
  | session (cfg : Config) (baseUrl : Option String) (token : String)
      (rec : Option AuthRecord) {st : StoreState} :
      Reachable st → Reachable (sessionSet cfg baseUrl token rec st)

/-! ## Collection service (collection-service.ts) -/

/-- A free-form JS `Record<string, any>` whose values this layer only ever
tests for truthiness (e.g. `options?.query`); values are modelled as
strings. -/
abbrev JsonObj := List (String × String)

/-- A schema field definition. `options` is carried opaquely; the
`typeof required !== "boolean"` runtime check cannot fire in this typed
model (the tool layer's zod schema enforces it). -/
structure SchemaField where
  name : String
  type : String
  required : Bool
  options : Option JsonObj
  deriving DecidableEq

/-- A collection schema as handed to `createCollection`. Rules distinguish
`undefined` (outer `none`), `null` (`some none`) and a string. The runtime
`!Array.isArray(schema.schema)` case is modelled by `schema = none`. -/
structure CollectionSchema where
  name : String
  type : String
  schema : Option (List SchemaField)
  listRule : Option (Option String)
  viewRule : Option (Option String)
  createRule : Option (Option String)
  updateRule : Option (Option String)
  deleteRule : Option (Option String)
  options : Option JsonObj
  deriving DecidableEq

/-- `VALID_FIELD_TYPES`. -/
def VALID_FIELD_TYPES : List String :=
  ["text", "number", "bool", "email", "url", "date", "select", "file",
   "relation", "json", "editor", "autodate"]

/-- `RESERVED_COLLECTION_NAMES`. -/
def RESERVED_COLLECTION_NAMES : List String :=
  ["_superusers", "_authOrigins", "_externalAuths", "_mfas", "_otps"]

/-- The `/^[a-zA-Z][a-zA-Z0-9_]*$/` identifier pattern. -/
def isValidIdent (s : String) : Bool :=
  match s.data with
  | [] => false
  | c :: cs => c.isAlpha && cs.all (fun d => d.isAlphanum || d = '_')

/-- `validateCollectionName`: empty name short-circuits with `required`;
otherwise length, pattern and reserved-name violations all accumulate. -/
def validateCollectionName (name : String) : List FieldValidationError :=
  if name = "" then
    [{ field := "name", code := "required", message := "Collection name is required" }]
  else
    (if name.length < 3 then
      [{ field := "name", code := "min_length"
         message := "Collection name must be at least 3 characters" }] else [])
    ++ (if name.length > 100 then
      [{ field := "name", code := "max_length"
         message := "Collection name must be at most 100 characters" }] else [])
    ++ (if !isValidIdent name then
      [{ field := "name", code := "invalid_format"
         message := "Collection name must start with a letter and contain only letters, numbers, and underscores" }] else [])
    ++ (if RESERVED_COLLECTION_NAMES.contains name then
      [{ field := "name", code := "reserved"
         message := "Collection name \x27" ++ name ++ "\x27 is reserved" }] else [])

/-- `validateSchemaField` at position `index`. -/
def validateSchemaField (f : SchemaField) (index : Nat) : List FieldValidationError :=
  let fieldPrefixStr := "schema[" ++ toString index ++ "]"
  (if f.name = "" then
    [{ field := fieldPrefixStr ++ ".name", code := "required"
       message := "Field name is required at index " ++ toString index }]
   else if !isValidIdent f.name then
    [{ field := fieldPrefixStr ++ ".name", code := "invalid_format"
       message := "Field name \x27" ++ f.name ++ "\x27 must start with a letter and contain only letters, numbers, and underscores" }]
   else [])
  ++ (if f.type = "" then
    [{ field := fieldPrefixStr ++ ".type", code := "required"
       message := "Field type is required at index " ++ toString index }]
   else if !VALID_FIELD_TYPES.contains f.type then
    [{ field := fieldPrefixStr ++ ".type", code := "invalid_type"
       message := "Invalid field type \x27" ++ f.type ++ "\x27. Valid types: " ++ String.intercalate ", " VALID_FIELD_TYPES }]
   else [])

/-- The duplicate-name violation entry for position `index`. -/
def duplicateFieldError (index : Nat) (name : String) : FieldValidationError :=
  { field := "schema[" ++ toString index ++ "].name", code := "duplicate"
    message := "Duplicate field name \x27" ++ name ++ "\x27" }

/-- The `schema.schema.forEach` loop: per-field violations plus duplicate
detection against the set of earlier truthy names. -/
def validateFieldsAux (fields : List SchemaField) (index : Nat) (seen : List String) :
    List FieldValidationError :=
  match fields with
  | [] => []
  | f :: rest =>
    validateSchemaField f index
    ++ (if f.name != "" && seen.contains f.name then [duplicateFieldError index f.name] else [])
    ++ validateFieldsAux rest (index + 1) (if f.name != "" then f.name :: seen else seen)

/-- Truthiness of `schema.options?.query`. -/
def optionsQuery (s : CollectionSchema) : Bool :=
  truthy (s.options.bind (fun o => (o.find? (·.1 == "query")).map (·.2)))

/-- `validateCollectionSchema`: name violations, then the type check, then
either the view-query requirement (fields skipped) or the per-field loop. -/
def validateCollectionSchema (s : CollectionSchema) : List FieldValidationError :=
  validateCollectionName s.name
  ++ (if s.type = "" || !(["base", "auth", "view"].contains s.type) then
      [{ field := "type", code := "invalid_type"
         message := "Collection type must be \x27base\x27, \x27auth\x27, or \x27view\x27" }] else [])
  ++ (if s.type = "view" then
      (if !optionsQuery s then
        [{ field := "options.query", code := "required"
           message := "View collections require options.query with a SQL SELECT statement" }]
       else [])
     else
      match s.schema with
      | none =>
        [{ field := "schema", code := "required", message := "Schema fields array is required" }]
      | some fields => validateFieldsAux fields 0 [])

/-- `isAdminAuthenticated`: no token → false; a cached record → superuser
collection or `isAdmin` flag; a bare token → optimistically admin. -/
def isAdminAuthenticated (a : AuthStore) : Bool :=
  if a.token = "" then false
  else
    match a.record with
    | some r => r.collectionName == "_superusers" || r.isAdmin
    | none => decide (0 < a.token.length)

/-- `createValidationError(fieldErrors, message)`. -/
def createValidationError (fieldErrors : List FieldValidationError)
    (message : Option String) : ErrorResponse :=
  { success := false
    error := message.getD "Validation failed for the provided data"
    code := .VALIDATION_ERROR
    details := some (.fieldsD fieldErrors)
    suggestion := "Check the field values and ensure they meet the schema requirements." }

/-- What a collection-mutating service call does before (or instead of) the
network: throw the FORBIDDEN gate error, throw the validation envelope, or
issue the backend request. -/
inductive MutationOutcome where
  | forbidden (code : String) (status : Nat)
  | invalid (resp : ErrorResponse)
  | backend
  deriving DecidableEq

/-- True exactly when the outcome issues a backend request. -/
def backendCalled : MutationOutcome → Bool
  | .backend => true
  | _ => false

/-- `createCollection` up to the network boundary: admin gate, then
client-side schema validation, then the backend call. -/
def createCollection (a : AuthStore) (s : CollectionSchema) : MutationOutcome :=
  if !isAdminAuthenticated a then .forbidden "FORBIDDEN" 403
  else
    let validationErrors := validateCollectionSchema s
    if validationErrors ≠ [] then
      .invalid (createValidationError validationErrors (some "Invalid collection schema"))
    else .backend

/-- A partial collection update (`Partial<CollectionSchema>`): only the
members `updateCollection` validates are modelled. -/
structure CollectionUpdate where
  name : Option String
  type : Option String
  schema : Option (List SchemaField)
  deriving DecidableEq

/-- The validation block of `updateCollection`. -/
def validateCollectionUpdate (u : CollectionUpdate) : List FieldValidationError :=
  (match u.name with
   | some n => validateCollectionName n
   | none => [])
  ++ (match u.type with
   | some t =>
     if !(["base", "auth", "view"].contains t) then
       [{ field := "type", code := "invalid_type"
          message := "Collection type must be \x27base\x27, \x27auth\x27, or \x27view\x27" }]
     else []
   | none => [])
  ++ (match u.schema with
   | some fields => validateFieldsAux fields 0 []
   | none => [])

/-- `updateCollection` up to the network boundary. -/
def updateCollection (a : AuthStore) (u : CollectionUpdate) : MutationOutcome :=
  if !isAdminAuthenticated a then .forbidden "FORBIDDEN" 403
  else
    let validationErrors := validateCollectionUpdate u
    if validationErrors ≠ [] then
      .invalid (createValidationError validationErrors (some "Invalid collection schema update"))
    else .backend

/-- `deleteCollection` up to the network boundary. -/
def deleteCollection (a : AuthStore) : MutationOutcome :=
  if !isAdminAuthenticated a then .forbidden "FORBIDDEN" 403
  else .backend

/-! ## Record service (record-service.ts)

A backend record is a JS object, modelled as its `Object.entries` list with
values of an arbitrary type `V`. -/

/-- Property read on a JS object (absent key → `undefined`, here `none`). -/
def objGet {V : Type} (rec : List (String × V)) (k : String) : Option V :=
  (rec.find? (·.1 == k)).map (·.2)

/-- The system-field list of `extractRecordFields`. -/
def recordSystemFields : List String :=
  ["id", "collectionId", "collectionName", "created", "updated", "expand"]

/-- `extractRecordFields`: every entry whose key is neither a system field
nor underscore-prefixed, with `expand` re-attached at the end when present
(backend `expand` values are objects, hence truthy). -/
def extractRecordFields {V : Type} (rec : List (String × V)) : List (String × V) :=
  let fields := rec.filter
    (fun kv => !recordSystemFields.contains kv.1 && !strStartsWith kv.1 "_")
  match objGet rec "expand" with
  | some v => fields ++ [("expand", v)]
  | none => fields

/-- `transformRecord`: the five system properties copied from the record
(a backend-returned record always carries them; an absent one would be JS
`undefined` and is simply not emitted here), followed by the extracted
user fields. -/
def transformRecord {V : Type} (rec : List (String × V)) : List (String × V) :=
  (["id", "collectionId", "collectionName", "created", "updated"].filterMap
    (fun k => (objGet rec k).map (fun v => (k, v))))
  ++ extractRecordFields rec

/-- The outcome of the SDK call `getFirstListItem`: a record or a thrown
`ClientResponseError`. -/
inductive BackendResult (V : Type) where
  | ok (rec : List (String × V))
  | err (e : ErrObj)

/-- The `{success:true, record}` shape. -/
structure RecordResponse (V : Type) where
  record : List (String × V)

/-- `getFirstRecord`: transform on success; `null` when the backend rejects
with raw status 404; otherwise throw the normalized envelope. -/
def getFirstRecord {V : Type} (collection : String) (outcome : BackendResult V) :
    Except ErrorResponse (Option (RecordResponse V)) :=
  match outcome with
  | .ok rec => .ok (some ⟨transformRecord rec⟩)
  | .err e =>
    if e.status == some 404 then .ok none
    else .error (handleError e (some ("Failed to find record in \x27" ++ collection ++ "\x27")))

/-! ## File URL helper (file-service part)

`isValidFileUrl` delegates URL parsing to the platform WHATWG `URL`
constructor; `parseUrl` below models it for absolute `scheme://authority/…`
URLs: parse failure is `none`, the scheme and host are lowercased, and an
empty path reads as `/`. -/

/-- Origin and pathname of a parsed URL. -/
structure UrlParts where
  scheme : String
  host : String
  pathname : String
  deriving DecidableEq

/-- `URL.origin`. -/
def urlOrigin (u : UrlParts) : String := u.scheme ++ "://" ++ u.host

/-- Split a character list at the first `://`. -/
def splitSchemeAux : List Char → Option (List Char × List Char)
  | [] => none
  | ':' :: '/' :: '/' :: tail => some ([], tail)
  | c :: rest => (splitSchemeAux rest).map (fun p => (c :: p.1, p.2))

/-- Split at the first `://`. -/
def splitScheme (s : String) : Option (String × String) :=
  (splitSchemeAux s.data).map (fun p => (⟨p.1⟩, ⟨p.2⟩))

/-- Characters allowed after the leading letter of a scheme. -/
def isSchemeChar (c : Char) : Bool := c.isAlphanum || c = '+' || c = '-' || c = '.'

/-- Model of `new URL(s)` (absolute form): `scheme://authority[/path][?…]`,
failing on a malformed scheme or an empty authority. -/
def parseUrl (s : String) : Option UrlParts :=
  match splitScheme s with
  | none => none
  | some (scheme, rest) =>
    match scheme.data with
    | [] => none
    | c :: cs =>
      if !(c.isAlpha && cs.all isSchemeChar) then none
      else
        let authority := rest.data.takeWhile (fun ch => ch != '/' && ch != '?' && ch != '#')
        if authority.isEmpty then none
        else
          let afterAuth := rest.data.drop authority.length
          let path := afterAuth.takeWhile (fun ch => ch != '?' && ch != '#')
          some { scheme := strToLower scheme
                 host := strToLower (⟨authority⟩ : String)
                 pathname := if path.isEmpty then "/" else ⟨path⟩ }

/-- `[a-zA-Z0-9_]`. -/
def isWordChar (c : Char) : Bool := c.isAlphanum || c = '_'

/-- What the regex `.` matches: any character except a line terminator. -/
def isRegexDot (c : Char) : Bool :=
  !(c = '\n' || c = '\r' || c = Char.ofNat 0x2028 || c = Char.ofNat 0x2029)

/-- The `[a-zA-Z0-9_]+\/[a-zA-Z0-9]+\/.+$` tail of the file-URL regex on
the characters after `/api/files/`: maximal munch of each character class
followed by a literal `/` is exactly what regex backtracking accepts, since
both classes exclude `/`. -/
def segMatch (l : List Char) : Bool :=
  match l.dropWhile isWordChar with
  | [] => false
  | c :: rest3 =>
    if c = '/' then
      match rest3.dropWhile Char.isAlphanum with
      | [] => false
      | d :: rest5 =>
        if d = '/' then
          !(l.takeWhile isWordChar).isEmpty
          && !(rest3.takeWhile Char.isAlphanum).isEmpty
          && !rest5.isEmpty && rest5.all isRegexDot
        else false
    else false

/-- Transliteration of `/^\/api\/files\/[a-zA-Z0-9_]+\/[a-zA-Z0-9]+\/.+$/`. -/
def filePathMatch (p : String) : Bool :=
  if "/api/files/".data.isPrefixOf p.data then
    segMatch (p.data.drop "/api/files/".data.length)
  else false

/-- `isValidFileUrl(url, baseUrl)`: falsy or unparseable input → `false`;
otherwise origin equality with the base URL and the file path pattern. -/
def isValidFileUrl (url baseUrl : String) : Bool :=
  if url = "" then false
  else
    match parseUrl url, parseUrl baseUrl with
    | some u, some b => urlOrigin u == urlOrigin b && filePathMatch u.pathname
    | _, _ => false

/-! ## C10: `getFirstRecord` 404 handling -/

/-- C10: for every collection and filter, a backend rejection of
`getFirstRecord` with raw status 404 yields `null` (no thrown envelope),
and any other backend failure throws the normalized error envelope built by
`handleError` with the call's context string. -/
theorem getFirstRecord_404_null {V : Type} (collection : String) (e : ErrObj) :
    (e.status = some 404 → getFirstRecord (V := V) collection (.err e) = .ok none)
    ∧ (e.status ≠ some 404 →
        getFirstRecord (V := V) collection (.err e) =
          .error (handleError e
            (some ("Failed to find record in \x27" ++ collection ++ "\x27")))) := by
  constructor
  · intro h
    simp [getFirstRecord, h]
  · intro h
    simp only [getFirstRecord]
    rw [if_neg]
    simp [h]

/-- Sample backend rejection with status 404. -/
def sample404 : ErrObj :=
  { status := some 404, code := none, message := "", name := none
    data := none, responseData := none, responseMessage := none }

/-- Sample backend rejection with status 500. -/
def sample500 : ErrObj :=
  { status := some 500, code := none, message := "", name := none
    data := none, responseData := none, responseMessage := none }

/-- Witness for C10 at concrete inputs: a 404 produces `null`, a 500
produces the thrown envelope. -/
theorem getFirstRecord_404_null_witness :
    getFirstRecord (V := Unit) "posts" (.err sample404) = .ok none
    ∧ getFirstRecord (V := Unit) "posts" (.err sample500) =
        .error (handleError sample500 (some "Failed to find record in \x27posts\x27")) :=
  ⟨(getFirstRecord_404_null "posts" sample404).1 rfl,
   (getFirstRecord_404_null "posts" sample500).2 (by decide)⟩

/-! ## C8: record field passthrough -/

/-- A concrete backend record whose `_secret` field is silently dropped by
`transformRecord`. -/
def underscoreRec : List (String × String) :=
  [("id", "r1"), ("collectionId", "c1"), ("collectionName", "posts"),
   ("created", "t0"), ("updated", "t1"), ("_secret", "x")]

/-- C8 counterexample: `_secret` is not a system field, is present on the
backend record, and is absent from the transformed response item — so not
every non-system field is passed through. -/
theorem transformRecord_drops_underscore :
    objGet underscoreRec "_secret" = some "x"
    ∧ recordSystemFields.contains "_secret" = false
    ∧ objGet (transformRecord underscoreRec) "_secret" = none := by
  refine ⟨rfl, rfl, by decide⟩

/-- C8 amended: the response item carries the five system fields (whenever
the backend record does, which it always does), every record field whose
name is neither a system field nor underscore-prefixed appears verbatim,
and no underscore-prefixed key ever appears in the response item. -/
theorem transformRecord_passthrough {V : Type} (rec : List (String × V)) :
    (∀ k v, k ∈ (["id", "collectionId", "collectionName", "created", "updated"] : List String) →
      objGet rec k = some v → (k, v) ∈ transformRecord rec)
    ∧ (∀ kv ∈ rec, recordSystemFields.contains kv.1 = false →
        strStartsWith kv.1 "_" = false → kv ∈ transformRecord rec)
    ∧ (∀ kv ∈ transformRecord rec, strStartsWith kv.1 "_" = false) := by
  refine ⟨?_, ?_, ?_⟩
  · intro k v hk hv
    apply List.mem_append_left
    exact List.mem_filterMap.2 ⟨k, hk, by rw [hv]; rfl⟩
  · intro kv hkv hsys hus
    apply List.mem_append_right
    have hsys' : kv.1 ∉ recordSystemFields := by simpa using hsys
    have hf : kv ∈ rec.filter
        (fun kv => !recordSystemFields.contains kv.1 && !strStartsWith kv.1 "_") := by
      apply List.mem_filter.2
      exact ⟨hkv, by simp [hsys', hus]⟩
    cases h : objGet rec "expand" with
    | none =>
      unfold extractRecordFields
      rw [h]
      exact hf
    | some v =>
      unfold extractRecordFields
      rw [h]
      exact List.mem_append_left _ hf
  · intro kv hkv
    unfold transformRecord at hkv
    rcases List.mem_append.1 hkv with h | h
    · rcases List.mem_filterMap.1 h with ⟨k, hk, hval⟩
      cases hg : objGet rec k with
      | none => rw [hg] at hval; simp at hval
      | some v =>
        rw [hg] at hval
        simp only [Option.map_some', Option.some.injEq] at hval
        have hk1 : kv.1 = k := by rw [← hval]
        rw [hk1]
        fin_cases hk <;> decide
    · unfold extractRecordFields at h
      have hfilter : ∀ p ∈ rec.filter
          (fun kv => !recordSystemFields.contains kv.1 && !strStartsWith kv.1 "_"),
          strStartsWith (p : String × V).1 "_" = false := by
        intro p hp
        have := (List.mem_filter.1 hp).2
        simp only [Bool.and_eq_true, Bool.not_eq_true'] at this
        exact this.2
      cases hg : objGet rec "expand" with
      | none =>
        rw [hg] at h
        exact hfilter kv h
      | some v =>
        rw [hg] at h
        rcases List.mem_append.1 h with h' | h'
        · exact hfilter kv h'
        · simp only [List.mem_singleton] at h'
          rw [h']
          show strStartsWith "expand" "_" = false
          decide

/-- Witness for C8's amended theorem at a concrete record: an ordinary
field and the system fields survive `transformRecord`. -/
theorem transformRecord_passthrough_witness :
    ("id", "r1") ∈ transformRecord underscoreRec
    ∧ (("title", "hello") ∈
        transformRecord (underscoreRec ++ [("title", "hello")])) :=
  ⟨(transformRecord_passthrough underscoreRec).1 "id" "r1" (by decide) rfl,
   (transformRecord_passthrough (underscoreRec ++ [("title", "hello")])).2.1
      ("title", "hello") (by decide) (by decide) (by decide)⟩

/-! ## C7: classifier totality and envelope shape -/

/-- Helper: the message `handleError` picks is never empty (truthy original
message, truthy response message, or a non-empty canned message). -/
lemma getErrorMessage_ne_empty (e : ErrObj) (dflt : String) (hd : dflt ≠ "") :
    getErrorMessage e dflt ≠ "" := by
  unfold getErrorMessage
  by_cases h1 : e.message = ""
  · rw [h1, if_neg (by decide)]
    by_cases h2 : truthy e.responseMessage = true
    · rw [if_pos h2]
      cases hrm : e.responseMessage with
      | none => rw [hrm] at h2; exact absurd h2 (by decide)
      | some s =>
        rw [hrm] at h2
        simpa using (by simpa [truthy] using h2 : ¬ s = "")
    · rw [if_neg h2]
      cases getErrorCode e <;> simp [cannedMessage, hd]
  · have hb : (e.message != "") = true := by simpa using h1
    rw [if_pos hb]
    exact h1

/-- Helper: the auth sub-branch of the classifier never yields
`UNKNOWN_ERROR`, whatever its three tests decide. -/
lemma authBranch_ne_unknown (p q r : Prop) [Decidable p] [Decidable q] [Decidable r] :
    (if p then ErrorCode.FORBIDDEN else if q then .AUTH_EXPIRED
     else if r then .AUTH_REQUIRED else .AUTH_INVALID) ≠ .UNKNOWN_ERROR := by
  split
  · decide
  · split
    · decide
    · split
      · decide
      · decide

/-- Helper: the only branch of `getErrorCode` producing `UNKNOWN_ERROR` is
the final fallback, so any firing detector rules it out. -/
lemma getErrorCode_ne_unknown (e : ErrObj)
    (h : isNetworkError e = true ∨ isRateLimitError e = true
       ∨ isNotFoundError e = true ∨ isValidationError e = true
       ∨ isAuthError e = true ∨ statusGE500 e = true) :
    getErrorCode e ≠ .UNKNOWN_ERROR := by
  unfold getErrorCode
  by_cases h1 : isNetworkError e = true
  · simp [h1]
  · by_cases h2 : isRateLimitError e = true
    · simp [h1, h2]
    · by_cases h3 : isNotFoundError e = true
      · simp [h1, h2, h3]
      · by_cases h4 : isValidationError e = true
        · simp [h1, h2, h3, h4]
        · by_cases h5 : isAuthError e = true
          · simp only [h1, h2, h3, h4, h5, if_true, if_false]
            exact authBranch_ne_unknown _ _ _
          · by_cases h6 : statusGE500 e = true
            · simp [h1, h2, h3, h4, h5, h6]
            · rcases h with h | h | h | h | h | h <;> contradiction

/-- The input refuting C7: a 400-status error without a field-keyed
payload and with no other indicator. -/
def bare400 : ErrObj :=
  { status := some 400, code := none, message := "", name := none
    data := none, responseData := none, responseMessage := none }

/-- C7 counterexample: an input carrying status 400 without a field-keyed
payload is classified `UNKNOWN_ERROR`, not one of the nine other codes. -/
theorem getErrorCode_bare400_unknown :
    bare400.status = some 400 ∧ bare400.data = none
    ∧ getErrorCode bare400 = .UNKNOWN_ERROR :=
  ⟨rfl, rfl, by decide⟩

/-- C7 amended: for every input whose status is 401, 403, 404, 429 or 500 —
and for 400 only when a field-keyed payload is attached — the classifier
returns one of the nine non-`UNKNOWN_ERROR` codes (a bare 400 falls through
to `UNKNOWN_ERROR`), and the envelope always has `success = false` and a
non-empty `error` string. -/
theorem getErrorCode_total (e : ErrObj)
    (h : e.status = some 401 ∨ e.status = some 403 ∨ e.status = some 404
       ∨ e.status = some 429 ∨ e.status = some 500
       ∨ (e.status = some 400 ∧ e.data.isSome = true)) :
    getErrorCode e ≠ .UNKNOWN_ERROR
    ∧ (handleError e).success = false
    ∧ (handleError e).error ≠ "" := by
  refine ⟨?_, rfl, getErrorMessage_ne_empty e _ (by decide)⟩
  apply getErrorCode_ne_unknown
  rcases h with h | h | h | h | h | ⟨h, hd⟩
  · exact Or.inr (Or.inr (Or.inr (Or.inr (Or.inl (by simp [isAuthError, h])))))
  · exact Or.inr (Or.inr (Or.inr (Or.inr (Or.inl (by simp [isAuthError, h])))))
  · exact Or.inr (Or.inr (Or.inl (by simp [isNotFoundError, h])))
  · exact Or.inr (Or.inl (by simp [isRateLimitError, h]))
  · exact Or.inr (Or.inr (Or.inr (Or.inr (Or.inr (by simp [statusGE500, h])))))
  · exact Or.inr (Or.inr (Or.inr (Or.inl (by simp [isValidationError, h, hd]))))

/-- Sample clean errors for the C7 witness: each status from the claim's
set, plus a 400 with a field-keyed payload. -/
def cleanStatusErr (n : Int) : ErrObj :=
  { status := some n, code := none, message := "", name := none
    data := none, responseData := none, responseMessage := none }

/-- A 400 carrying a field-keyed payload. -/
def payload400 : ErrObj :=
  { cleanStatusErr 400 with
    data := some [("title", .objP (some "required") (some "Missing value"))] }

/-- Witness for C7's amended theorem: concrete classifications across the
claim's status set follow the documented precedence, with a non-`UNKNOWN`
code each time. -/
theorem getErrorCode_total_witness :
    (getErrorCode (cleanStatusErr 401) ≠ .UNKNOWN_ERROR
      ∧ getErrorCode (cleanStatusErr 403) ≠ .UNKNOWN_ERROR
      ∧ getErrorCode (cleanStatusErr 404) ≠ .UNKNOWN_ERROR
      ∧ getErrorCode (cleanStatusErr 429) ≠ .UNKNOWN_ERROR
      ∧ getErrorCode (cleanStatusErr 500) ≠ .UNKNOWN_ERROR
      ∧ getErrorCode payload400 ≠ .UNKNOWN_ERROR)
    ∧ (handleError payload400).success = false
    ∧ (handleError payload400).error ≠ ""
    ∧ getErrorCode (cleanStatusErr 401) = .AUTH_INVALID
    ∧ getErrorCode (cleanStatusErr 403) = .FORBIDDEN
    ∧ getErrorCode (cleanStatusErr 404) = .NOT_FOUND
    ∧ getErrorCode (cleanStatusErr 429) = .RATE_LIMITED
    ∧ getErrorCode (cleanStatusErr 500) = .SERVER_ERROR
    ∧ getErrorCode payload400 = .VALIDATION_ERROR :=
  ⟨⟨(getErrorCode_total (cleanStatusErr 401) (Or.inl rfl)).1,
    (getErrorCode_total (cleanStatusErr 403) (Or.inr (Or.inl rfl))).1,
    (getErrorCode_total (cleanStatusErr 404) (Or.inr (Or.inr (Or.inl rfl)))).1,
    (getErrorCode_total (cleanStatusErr 429) (Or.inr (Or.inr (Or.inr (Or.inl rfl))))).1,
    (getErrorCode_total (cleanStatusErr 500) (Or.inr (Or.inr (Or.inr (Or.inr (Or.inl rfl)))))).1,
    (getErrorCode_total payload400 (Or.inr (Or.inr (Or.inr (Or.inr (Or.inr ⟨rfl, rfl⟩)))))).1⟩,
   (getErrorCode_total payload400 (Or.inr (Or.inr (Or.inr (Or.inr (Or.inr ⟨rfl, rfl⟩)))))).2.1,
   (getErrorCode_total payload400 (Or.inr (Or.inr (Or.inr (Or.inr (Or.inr ⟨rfl, rfl⟩)))))).2.2,
   by decide, by decide, by decide, by decide, by decide, by decide⟩

/-! ## C9: `isValidFileUrl` -/

/-- Helper: `takeWhile` over a block of class characters stops exactly at
the first failing character. -/
lemma takeWhile_append_not {α : Type} (p : α → Bool) (l1 : List α) (a : α) (l2 : List α)
    (h1 : ∀ x ∈ l1, p x = true) (h2 : p a = false) :
    (l1 ++ a :: l2).takeWhile p = l1 := by
  induction l1 with
  | nil => simp [List.takeWhile_cons, h2]
  | cons x xs ih =>
    have hx := h1 x (by simp)
    simp only [List.cons_append, List.takeWhile_cons, hx, if_true]
    rw [ih (fun y hy => h1 y (by simp [hy]))]

/-- Helper: `dropWhile` over a block of class characters resumes exactly at
the first failing character. -/
lemma dropWhile_append_not {α : Type} (p : α → Bool) (l1 : List α) (a : α) (l2 : List α)
    (h1 : ∀ x ∈ l1, p x = true) (h2 : p a = false) :
    (l1 ++ a :: l2).dropWhile p = a :: l2 := by
  induction l1 with
  | nil => simp [List.dropWhile_cons, h2]
  | cons x xs ih =>
    have hx := h1 x (by simp)
    simp only [List.cons_append, List.dropWhile_cons, hx, if_true]
    exact ih (fun y hy => h1 y (by simp [hy]))

/-- Helper: `segMatch` accepts exactly the decompositions
`cid ++ "/" ++ rid ++ "/" ++ rest` with the regex's class and
non-emptiness constraints. -/
lemma segMatch_iff (l : List Char) :
    segMatch l = true ↔
      ∃ cid rid rest : List Char,
        l = cid ++ '/' :: (rid ++ '/' :: rest)
        ∧ cid ≠ [] ∧ (∀ c ∈ cid, isWordChar c = true)
        ∧ rid ≠ [] ∧ (∀ c ∈ rid, Char.isAlphanum c = true)
        ∧ rest ≠ [] ∧ (∀ c ∈ rest, isRegexDot c = true) := by
  constructor
  · intro h
    unfold segMatch at h
    split at h
    case h_1 => exact absurd h (by simp)
    case h_2 c rest3 heq =>
      by_cases hc : c = '/'
      case neg => rw [if_neg hc] at h; exact absurd h (by simp)
      rw [if_pos hc] at h
      subst hc
      split at h
      next => exact absurd h (by simp)
      next d rest5 heq2 =>
        by_cases hd : d = '/'
        case neg => rw [if_neg hd] at h; exact absurd h (by simp)
        rw [if_pos hd] at h
        subst hd
        simp only [Bool.and_eq_true, Bool.not_eq_true', List.all_eq_true] at h
        obtain ⟨⟨⟨hcid, hrid⟩, hrest⟩, hall⟩ := h
        refine ⟨l.takeWhile isWordChar, rest3.takeWhile Char.isAlphanum, rest5,
          ?_, ?_, ?_, ?_, ?_, ?_, hall⟩
        · have hl := List.takeWhile_append_dropWhile (p := isWordChar) (l := l)
          have hr3 := List.takeWhile_append_dropWhile (p := Char.isAlphanum) (l := rest3)
          rw [heq] at hl
          rw [heq2] at hr3
          rw [hr3]
          exact hl.symm
        · simpa using hcid
        · exact fun c hc => List.mem_takeWhile_imp hc
        · simpa using hrid
        · exact fun c hc => List.mem_takeWhile_imp hc
        · simpa using hrest
  · rintro ⟨cid, rid, rest, rfl, hcid, hcw, hrid, hra, hrest, hrd⟩
    unfold segMatch
    rw [takeWhile_append_not isWordChar cid '/' _ hcw (by decide),
        dropWhile_append_not isWordChar cid '/' _ hcw (by decide)]
    dsimp only
    rw [if_pos rfl,
        takeWhile_append_not Char.isAlphanum rid '/' rest hra (by decide),
        dropWhile_append_not Char.isAlphanum rid '/' rest hra (by decide)]
    dsimp only
    rw [if_pos rfl]
    simp [hcid, hrid, hrest, List.all_eq_true]
    exact hrd

/-- Helper: `filePathMatch` accepts exactly the pathnames of the shape
`/api/files/{collectionId}/{recordId}/{anything}`. -/
lemma filePathMatch_iff (p : String) :
    filePathMatch p = true ↔
      ∃ cid rid rest : String,
        p = "/api/files/" ++ cid ++ "/" ++ rid ++ "/" ++ rest
        ∧ cid ≠ "" ∧ (∀ c ∈ cid.data, isWordChar c = true)
        ∧ rid ≠ "" ∧ (∀ c ∈ rid.data, Char.isAlphanum c = true)
        ∧ rest ≠ "" ∧ (∀ c ∈ rest.data, isRegexDot c = true) := by
  unfold filePathMatch
  constructor
  · intro h
    by_cases hpre : "/api/files/".data.isPrefixOf p.data = true
    case neg => rw [if_neg hpre] at h; exact absurd h (by simp)
    rw [if_pos hpre] at h
    obtain ⟨t, ht⟩ := List.isPrefixOf_iff_prefix.mp hpre
    have hdrop : p.data.drop ("/api/files/".data.length) = t := by
      rw [← ht, List.drop_left]
    rw [hdrop] at h
    obtain ⟨cid, rid, rest, hteq, hcid, hcw, hrid, hra, hrest, hrd⟩ :=
      (segMatch_iff t).mp h
    refine ⟨⟨cid⟩, ⟨rid⟩, ⟨rest⟩, ?_, ?_, hcw, ?_, hra, ?_, hrd⟩
    · apply String.ext
      simp only [String.data_append]
      rw [← ht, hteq]
      simp
    · intro hc
      exact hcid (congrArg String.data hc)
    · intro hc
      exact hrid (congrArg String.data hc)
    · intro hc
      exact hrest (congrArg String.data hc)
  · rintro ⟨cid, rid, rest, rfl, hcid, hcw, hrid, hra, hrest, hrd⟩
    have hdata : ("/api/files/" ++ cid ++ "/" ++ rid ++ "/" ++ rest).data
        = "/api/files/".data ++ (cid.data ++ '/' :: (rid.data ++ '/' :: rest.data)) := by
      simp [String.data_append]
    rw [hdata, if_pos (List.isPrefixOf_iff_prefix.mpr ⟨_, rfl⟩), List.drop_left]
    apply (segMatch_iff _).mpr
    refine ⟨cid.data, rid.data, rest.data, rfl, ?_, hcw, ?_, hra, ?_, hrd⟩
    · exact fun hc => hcid (String.ext hc)
    · exact fun hc => hrid (String.ext hc)
    · exact fun hc => hrest (String.ext hc)

/-- C9: `isValidFileUrl` is total (a Lean function by construction, it
never raises) and returns `true` exactly when the input is non-empty,
both it and the configured base URL parse, the origins agree, and the
pathname decomposes as `/api/files/{collectionId}/{recordId}/{anything}`;
any origin mismatch, path mismatch, parse failure or empty input yields
`false`. -/
theorem isValidFileUrl_spec (url baseUrl : String) :
    isValidFileUrl url baseUrl = true ↔
      (url ≠ "" ∧ ∃ u b, parseUrl url = some u ∧ parseUrl baseUrl = some b
        ∧ urlOrigin u = urlOrigin b
        ∧ ∃ cid rid rest : String,
            u.pathname = "/api/files/" ++ cid ++ "/" ++ rid ++ "/" ++ rest
            ∧ cid ≠ "" ∧ (∀ c ∈ cid.data, isWordChar c = true)
            ∧ rid ≠ "" ∧ (∀ c ∈ rid.data, Char.isAlphanum c = true)
            ∧ rest ≠ "" ∧ (∀ c ∈ rest.data, isRegexDot c = true)) := by
  unfold isValidFileUrl
  by_cases hu : url = ""
  · simp [hu]
  · rw [if_neg hu]
    cases hpu : parseUrl url with
    | none => simp [hu, hpu]
    | some u =>
      cases hpb : parseUrl baseUrl with
      | none => simp [hu, hpb]
      | some b =>
        simp only [hu, hpu, hpb, Option.some.injEq, ne_eq, not_false_iff, true_and,
          Bool.and_eq_true, beq_iff_eq, filePathMatch_iff]
        constructor
        · rintro ⟨horig, hdecomp⟩
          exact ⟨u, b, rfl, rfl, horig, hdecomp⟩
        · rintro ⟨u', b', hu', hb', horig, hdecomp⟩
          cases hu'
          cases hb'
          exact ⟨horig, hdecomp⟩

/-- Witness for C9: a well-shaped same-origin file URL is accepted (built
through the theorem's right-to-left direction); an origin mismatch and an
empty input are rejected. -/
theorem isValidFileUrl_spec_witness :
    isValidFileUrl "http://h:8090/api/files/c1/r1/f.png" "http://h:8090" = true
    ∧ isValidFileUrl "http://evil:9000/api/files/c1/r1/f.png" "http://h:8090" = false
    ∧ isValidFileUrl "" "http://h:8090" = false :=
  ⟨(isValidFileUrl_spec "http://h:8090/api/files/c1/r1/f.png" "http://h:8090").mpr
    ⟨by decide,
     { scheme := "http", host := "h:8090", pathname := "/api/files/c1/r1/f.png" },
     { scheme := "http", host := "h:8090", pathname := "/" },
     by decide, by decide, rfl,
     "c1", "r1", "f.png", rfl, by decide, by decide, by decide, by decide,
     by decide, by decide⟩,
   by decide, by decide⟩

/-! ## C3: trailing-slash normalization and handle identity -/

/-- `url` with `k` extra trailing slashes appended. -/
def appendSlashes (s : String) (k : Nat) : String :=
  s ++ ⟨List.replicate k '/'⟩

/-- The configuration with neither `POCKETBASE_URL` nor
`POCKETBASE_ADMIN_TOKEN` set. -/
def cfg0 : Config := { pocketbaseUrl := none, adminToken := none }

/-- C3 counterexample: for the URL string `""`, appending one slash changes
the result of resolution — `""` is falsy and falls through to the
default URL, while `"/"` is truthy and normalizes to `""`. -/
theorem getPocketBaseUrl_empty_slash :
    appendSlashes "" 1 = "/"
    ∧ getPocketBaseUrl cfg0 (some (appendSlashes "" 1)) = ""
    ∧ getPocketBaseUrl cfg0 (some "") = "http://127.0.0.1:8090"
    ∧ getPocketBaseUrl cfg0 (some (appendSlashes "" 1)) ≠ getPocketBaseUrl cfg0 (some "") :=
  ⟨by decide, by decide, by decide, by decide⟩

/-- Helper: `dropWhile` swallows a leading block of satisfying elements. -/
lemma dropWhile_replicate_append {α : Type} (p : α → Bool) (k : Nat) (a : α)
    (l : List α) (h : p a = true) :
    (List.replicate k a ++ l).dropWhile p = l.dropWhile p := by
  induction k with
  | zero => simp
  | succ n ih => simp [List.replicate_succ, List.dropWhile_cons, h, ih]

/-- C3 amended: for every non-empty URL string, appending 0, 1 or many
trailing slashes leaves `getPocketBaseUrl` unchanged (the empty string
alone escapes this, being falsy); and resolving the same URL twice in one
process returns the same stored handle id with the state unchanged
(reference identity of the stored client). -/
theorem url_normalization_idempotent :
    (∀ (cfg : Config) (s : String) (k : Nat), s ≠ "" →
       getPocketBaseUrl cfg (some (appendSlashes s k)) = getPocketBaseUrl cfg (some s))
    ∧ (∀ (cfg : Config) (baseUrl : Option String) (st : StoreState),
       (getOrCreateClient cfg baseUrl ((getOrCreateClient cfg baseUrl st).2)).1
          = (getOrCreateClient cfg baseUrl st).1
       ∧ (getOrCreateClient cfg baseUrl ((getOrCreateClient cfg baseUrl st).2)).2
          = (getOrCreateClient cfg baseUrl st).2) := by
  constructor
  · intro cfg s k hs
    have hne : appendSlashes s k ≠ "" := by
      intro hx
      apply hs
      have := congrArg String.data hx
      simp only [appendSlashes, String.data_append] at this
      exact String.ext (List.append_eq_nil.mp this).1
    have h1 : truthy (some (appendSlashes s k)) = true := by
      simp [truthy, hne]
    have h2 : truthy (some s) = true := by
      simp [truthy, hs]
    unfold getPocketBaseUrl
    rw [if_pos h1, if_pos h2]
    simp only [Option.getD_some]
    unfold normalizeUrl appendSlashes
    apply String.ext
    simp only [String.data_append, List.reverse_append, List.reverse_reverse]
    rw [List.reverse_replicate,
      dropWhile_replicate_append _ k '/' s.data.reverse (by decide)]
  · intro cfg baseUrl st
    unfold getOrCreateClient
    cases hl : lookupStore (getPocketBaseUrl cfg baseUrl) st with
    | some id => simp [hl]
    | none =>
      simp only [hl]
      have hl2 : lookupStore (getPocketBaseUrl cfg baseUrl)
          (storeSet (createClient st none none).2 (getPocketBaseUrl cfg baseUrl)
            (createClient st none none).1)
          = some (createClient st none none).1 := by
        unfold lookupStore storeSet
        simp [List.find?_cons]
      simp [hl2]

/-- Witness for C3's amended theorem: concrete slash-invariance and
repeated resolution of `http://a` from the empty state. -/
theorem url_normalization_idempotent_witness :
    getPocketBaseUrl cfg0 (some (appendSlashes "http://h:8090" 2))
      = getPocketBaseUrl cfg0 (some "http://h:8090")
    ∧ (getOrCreateClient cfg0 (some "http://a")
        ((getOrCreateClient cfg0 (some "http://a") initState).2)).1
      = (getOrCreateClient cfg0 (some "http://a") initState).1 :=
  ⟨url_normalization_idempotent.1 cfg0 "http://h:8090" 2 (by decide),
   (url_normalization_idempotent.2 cfg0 (some "http://a") initState).1⟩

/-! ## C1: credential precedence -/

/-- C1: exactly one credential is selected per call by the precedence
explicit call-level token > stored valid session token > environment
token, on both resolution paths (the `getPocketBaseClient` path of the
collection tools and the `getOrCreateClient`-plus-override path of the
record/user tools): (a) an explicit token is always the one used; (b) with
no explicit token, a stored valid session token is used — and the stored
handle itself is the client; (c) with no explicit token and no valid
stored token, the environment token is used. -/
theorem credential_precedence (tv : String → Bool) (cfg : Config)
    (st : StoreState) (baseUrl : Option String) (tE : String)
    (hE : cfg.adminToken = some tE) (hEne : tE ≠ "") :
    (∀ tC : String, tC ≠ "" →
      (∃ id st', getPocketBaseClient tv cfg (some tC) baseUrl st = .ok (id, st')
        ∧ usedToken st' id = tC)
      ∧ usedToken (recordToolResolve tv cfg (some tC) baseUrl st).2
          (recordToolResolve tv cfg (some tC) baseUrl st).1 = tC)
    ∧ (∀ id, lookupStore (getPocketBaseUrl cfg baseUrl) st = some id →
        isValidB tv (st.auth id) = true →
        getPocketBaseClient tv cfg none baseUrl st = .ok (id, st)
        ∧ (recordToolResolve tv cfg none baseUrl st).1 = id
        ∧ (recordToolResolve tv cfg none baseUrl st).2.auth id = st.auth id)
    ∧ ((∀ id, lookupStore (getPocketBaseUrl cfg baseUrl) st = some id →
          isValidB tv (st.auth id) = false) →
        (∃ id st', getPocketBaseClient tv cfg none baseUrl st = .ok (id, st')
          ∧ usedToken st' id = tE)
        ∧ usedToken (recordToolResolve tv cfg none baseUrl st).2
            (recordToolResolve tv cfg none baseUrl st).1 = tE) := by
  refine ⟨?_, ?_, ?_⟩
  · intro tC htC
    have htc : truthy (some tC) = true := by simp [truthy, htC]
    constructor
    · refine ⟨st.nextId,
        (allocClient st { token := (some tC).getD "", record := none }).2, ?_, ?_⟩
      · unfold getPocketBaseClient
        rw [if_pos htc]
        rfl
      · simp [usedToken, allocClient]
    · unfold recordToolResolve
      rw [if_pos htc]
      simp [usedToken, authSave]
  · intro id hl hv
    refine ⟨?_, ?_⟩
    · unfold getPocketBaseClient
      rw [if_neg (by decide), hl]
      dsimp only
      rw [if_pos hv]
    · unfold recordToolResolve getOrCreateClient
      rw [hl]
      dsimp only
      rw [if_neg (by decide)]
      rw [hv]
      simp
  · intro hinv
    have henv : truthy cfg.adminToken = true := by simp [truthy, hE, hEne]
    have henvres : envTokenFallback cfg st
        = .ok (allocClient st { token := tE, record := none }) := by
      unfold envTokenFallback
      rw [if_pos henv, hE]
      rfl
    constructor
    · cases hl : lookupStore (getPocketBaseUrl cfg baseUrl) st with
      | some id =>
        refine ⟨st.nextId, (allocClient st { token := tE, record := none }).2, ?_, ?_⟩
        · unfold getPocketBaseClient
          rw [if_neg (by decide), hl]
          dsimp only
          rw [if_neg (by simp [hinv id hl]), henvres]
          rfl
        · simp [usedToken, allocClient]
      | none =>
        refine ⟨st.nextId, (allocClient st { token := tE, record := none }).2, ?_, ?_⟩
        · unfold getPocketBaseClient
          rw [if_neg (by decide), hl]
          dsimp only
          rw [henvres]
          rfl
        · simp [usedToken, allocClient]
    · unfold recordToolResolve getOrCreateClient
      cases hl : lookupStore (getPocketBaseUrl cfg baseUrl) st with
      | some id =>
        dsimp only
        rw [if_neg (by decide)]
        rw [if_pos (by simp [hinv id hl, henv])]
        simp [usedToken, authSave, hE]
      | none =>
        dsimp only
        rw [if_neg (by decide)]
        have hfresh : (storeSet (createClient st none none).2
            (getPocketBaseUrl cfg baseUrl) (createClient st none none).1).auth
            (createClient st none none).1 = emptyAuth := by
          simp [storeSet, createClient, allocClient, truthy, emptyAuth]
        rw [if_pos (by simp [hfresh, isValidB, emptyAuth, henv])]
        simp [usedToken, authSave, hE]

/-- A token-validity model accepting every non-empty token (no expiry). -/
def tvAll : String → Bool := fun _ => true

/-- Environment configuration with admin token `B` and no URL override. -/
def cfgB : Config := { pocketbaseUrl := none, adminToken := some "B" }

/-- A store holding one handle for the default URL with session token `A`. -/
def stA : StoreState :=
  { store := [("http://127.0.0.1:8090", 0)]
    nextId := 1
    auth := fun i => if i = 0 then { token := "A", record := none } else emptyAuth }

/-- Witness for C1 at the spec's own example: session token `A` in the
store, environment token `B`; an explicit `C` wins on both paths; without
an explicit token the stored `A` wins; after invalidating the session the
environment `B` is used. -/
theorem credential_precedence_witness :
    (∃ id st', getPocketBaseClient tvAll cfgB (some "C") none stA = .ok (id, st')
      ∧ usedToken st' id = "C")
    ∧ getPocketBaseClient tvAll cfgB none none stA = .ok (0, stA)
    ∧ usedToken (recordToolResolve tvAll cfgB none none stA).2
        (recordToolResolve tvAll cfgB none none stA).1 = "A"
    ∧ usedToken (recordToolResolve tvAll cfgB none none initState).2
        (recordToolResolve tvAll cfgB none none initState).1 = "B" := by
  refine ⟨((credential_precedence tvAll cfgB stA none "B" rfl (by decide)).1
      "C" (by decide)).1, ?_, ?_, ?_⟩
  · exact ((credential_precedence tvAll cfgB stA none "B" rfl (by decide)).2.1
      0 rfl rfl).1
  · have h := ((credential_precedence tvAll cfgB stA none "B" rfl (by decide)).2.1
      0 rfl rfl)
    rw [usedToken, h.2.1, h.2.2]
    rfl
  · exact ((credential_precedence tvAll cfgB initState none "B" rfl (by decide)).2.2
      (fun id hid => by simp [lookupStore, initState] at hid)).2

/-! ## C2: explicit token persistence -/

/-- C2 counterexample: on the record-tool path (`list_records` and its
siblings), a call with explicit token `C` saves `C` into the stored
handle — the stored credential changes from `A` to `C` and persists. -/
theorem explicit_token_persists :
    usedToken stA 0 = "A"
    ∧ (recordToolResolve tvAll cfgB (some "C") none stA).1 = 0
    ∧ usedToken (recordToolResolve tvAll cfgB (some "C") none stA).2 0 = "C" :=
  ⟨rfl, by decide, by decide⟩

/-- Helper: `getPocketBaseClient` never touches the store map and leaves
every previously allocated handle's auth store unchanged (its fresh clients
are allocated above `nextId`). -/
lemma getPocketBaseClient_state {tv : String → Bool} {cfg : Config}
    {adminToken baseUrl : Option String} {st : StoreState} {id : Nat} {st' : StoreState}
    (hok : getPocketBaseClient tv cfg adminToken baseUrl st = .ok (id, st')) :
    st'.store = st.store ∧ st.nextId ≤ st'.nextId
    ∧ ∀ j, j < st.nextId → st'.auth j = st.auth j := by
  have hframe : ∀ a : AuthStore,
      (allocClient st a).2.store = st.store
      ∧ st.nextId ≤ (allocClient st a).2.nextId
      ∧ ∀ j, j < st.nextId → (allocClient st a).2.auth j = st.auth j := by
    intro a
    refine ⟨rfl, Nat.le_succ _, fun j hj => ?_⟩
    simp [allocClient, Nat.ne_of_lt hj]
  unfold getPocketBaseClient at hok
  by_cases ht : truthy adminToken = true
  · rw [if_pos ht] at hok
    injection hok with hpair
    obtain rfl : st' = (allocClient st { token := adminToken.getD "", record := none }).2 :=
      (congrArg Prod.snd hpair).symm
    exact hframe _
  · rw [if_neg ht] at hok
    cases hl : lookupStore (getPocketBaseUrl cfg baseUrl) st with
    | some j =>
      rw [hl] at hok
      dsimp only at hok
      by_cases hv : isValidB tv (st.auth j) = true
      · rw [if_pos hv] at hok
        injection hok with hpair
        obtain rfl : st' = st := (congrArg Prod.snd hpair).symm
        exact ⟨rfl, Nat.le_refl _, fun _ _ => rfl⟩
      · rw [if_neg hv] at hok
        unfold envTokenFallback at hok
        by_cases he : truthy cfg.adminToken = true
        · rw [if_pos he] at hok
          injection hok with hpair
          obtain rfl : st'
              = (allocClient st { token := cfg.adminToken.getD "", record := none }).2 :=
            (congrArg Prod.snd hpair).symm
          exact hframe _
        · rw [if_neg he] at hok
          simp at hok
    | none =>
      rw [hl] at hok
      dsimp only at hok
      unfold envTokenFallback at hok
      by_cases he : truthy cfg.adminToken = true
      · rw [if_pos he] at hok
        injection hok with hpair
        obtain rfl : st'
            = (allocClient st { token := cfg.adminToken.getD "", record := none }).2 :=
          (congrArg Prod.snd hpair).symm
        exact hframe _
      · rw [if_neg he] at hok
        simp at hok

/-- C2 amended: the `getPocketBaseClient` path (collection tools) applies
an explicit token to a fresh transient client, leaving the store map and
every previously allocated handle untouched; but the record/user/custom
tools resolve the stored handle via `getOrCreateClient` and save the
explicit token into it, so there the explicit token does persist in the
Session Store handle. -/
theorem explicit_token_scope (tv : String → Bool) (cfg : Config)
    (adminToken baseUrl : Option String) (st : StoreState) :
    (∀ id st', getPocketBaseClient tv cfg adminToken baseUrl st = .ok (id, st') →
      st'.store = st.store ∧ ∀ j, j < st.nextId → st'.auth j = st.auth j)
    ∧ (∀ tC : String, tC ≠ "" →
        ∀ id, lookupStore (getPocketBaseUrl cfg baseUrl) st = some id →
        (recordToolResolve tv cfg (some tC) baseUrl st).1 = id
        ∧ usedToken (recordToolResolve tv cfg (some tC) baseUrl st).2 id = tC) := by
  constructor
  · intro id st' hok
    exact ⟨(getPocketBaseClient_state hok).1,
      fun j hj => (getPocketBaseClient_state hok).2.2 j hj⟩
  · intro tC htC id hl
    have htc : truthy (some tC) = true := by simp [truthy, htC]
    unfold recordToolResolve getOrCreateClient
    rw [hl]
    dsimp only
    rw [if_pos htc]
    simp [usedToken, authSave]

/-- Witness for C2's amended theorem: the collection-tool path with
explicit token `C` leaves the stored handle's credential `A` in place,
while the record-tool path (shown in the counterexample) persists it. -/
theorem explicit_token_scope_witness :
    (∃ st', getPocketBaseClient tvAll cfgB (some "C") none stA = .ok (1, st')
      ∧ st'.store = stA.store ∧ st'.auth 0 = stA.auth 0)
    ∧ (recordToolResolve tvAll cfgB (some "C") none stA).1 = 0
    ∧ usedToken (recordToolResolve tvAll cfgB (some "C") none stA).2 0 = "C" := by
  refine ⟨⟨(allocClient stA { token := "C", record := none }).2, rfl, ?_⟩, ?_⟩
  · have h := (explicit_token_scope tvAll cfgB (some "C") none stA).1 1
      (allocClient stA { token := "C", record := none }).2 rfl
    exact ⟨h.1, h.2 0 (by decide)⟩
  · exact (explicit_token_scope tvAll cfgB (some "C") none stA).2 "C" (by decide) 0 (by decide)

/-! ## C4: multi-instance isolation -/

/-- Helper: a successful lookup exhibits a store entry with that URL. -/
lemma lookupStore_mem {url : String} {st : StoreState} {i : Nat}
    (h : lookupStore url st = some i) : (url, i) ∈ st.store := by
  unfold lookupStore at h
  cases hf : st.store.find? (·.1 == url) with
  | none => rw [hf] at h; simp at h
  | some p =>
    rw [hf] at h
    simp only [Option.map_some', Option.some.injEq] at h
    have hkey := List.find?_some hf
    have hmem := List.mem_of_find?_eq_some hf
    obtain ⟨p1, p2⟩ := p
    simp only [beq_iff_eq] at hkey
    subst hkey
    cases h
    exact hmem

/-- Helper: well-formedness survives any step that preserves the store map
and never shrinks the allocation counter. -/
lemma storeWF_of_parts {st st' : StoreState} (hs : st'.store = st.store)
    (hn : st.nextId ≤ st'.nextId) (h : StoreWF st) : StoreWF st' := by
  refine ⟨fun p hp => ?_, ?_⟩
  · exact Nat.lt_of_lt_of_le (h.1 p (hs ▸ hp)) hn
  · rw [hs]
    exact h.2

/-- Helper: prepending a fresh entry (keyed by the just-allocated id)
preserves well-formedness. -/
lemma storeWF_fresh {st st' : StoreState} (url : String)
    (hs : st'.store = (url, st.nextId) :: st.store)
    (hn : st'.nextId = st.nextId + 1) (h : StoreWF st) : StoreWF st' := by
  constructor
  · intro p hp
    rw [hs] at hp
    rw [hn]
    rcases List.mem_cons.1 hp with rfl | hp'
    · exact Nat.lt_succ_self _
    · exact Nat.lt_succ_of_lt (h.1 p hp')
  · rw [hs]
    simp only [List.map_cons, List.nodup_cons]
    refine ⟨fun hmem => ?_, h.2⟩
    rcases List.mem_map.1 hmem with ⟨p, hp, hsnd⟩
    exact absurd (hsnd ▸ h.1 p hp) (Nat.lt_irrefl _)

/-- Helper: every reachable state is well-formed — distinct store entries
never share a handle id, and stored ids are below the allocation counter. -/
lemma reachable_wf {st : StoreState} (h : Reachable st) : StoreWF st := by
  induction h with
  | init =>
    exact ⟨fun p hp => absurd hp (List.not_mem_nil p), List.nodup_nil⟩
  | getOrCreate cfg baseUrl _ ih =>
    rename_i stp hre
    unfold getOrCreateClient
    cases hl : lookupStore (getPocketBaseUrl cfg baseUrl) stp with
    | some id => exact ih
    | none => exact storeWF_fresh _ rfl rfl ih
  | save url id token rec _ _ ih => exact storeWF_of_parts rfl (Nat.le_refl _) ih
  | clear url id _ _ ih => exact storeWF_of_parts rfl (Nat.le_refl _) ih
  | getClient tv cfg adminToken baseUrl _ hok ih =>
    exact storeWF_of_parts (getPocketBaseClient_state hok).1
      (getPocketBaseClient_state hok).2.1 ih
  | recordResolve tv cfg adminToken baseUrl _ ih =>
    rename_i stp hre
    have hwf1 : StoreWF (getOrCreateClient cfg baseUrl stp).2 := by
      unfold getOrCreateClient
      cases hl : lookupStore (getPocketBaseUrl cfg baseUrl) stp with
      | some id => exact ih
      | none => exact storeWF_fresh _ rfl rfl ih
    unfold recordToolResolve
    by_cases ht : truthy adminToken = true
    · rw [if_pos ht]
      exact storeWF_of_parts rfl (Nat.le_refl _) hwf1
    · rw [if_neg ht]
      split
      · exact storeWF_of_parts rfl (Nat.le_refl _) hwf1
      · exact hwf1
  | session cfg baseUrl token rec _ ih =>
    exact storeWF_fresh _ rfl rfl ih

/-- Helper: in a well-formed store, distinct URLs resolve to distinct
handle ids. -/
lemma store_inj {st : StoreState} (hwf : StoreWF st) {u1 u2 : String}
    {i1 i2 : Nat} (h1 : lookupStore u1 st = some i1)
    (h2 : lookupStore u2 st = some i2) (hne : u1 ≠ u2) : i1 ≠ i2 := by
  intro heq
  subst heq
  have hm1 := lookupStore_mem h1
  have hm2 := lookupStore_mem h2
  have := List.inj_on_of_nodup_map hwf.2 hm1 hm2 rfl
  exact hne (congrArg Prod.fst this)

/-- C4: in every reachable process state, two distinct URLs present in the
Session Store map to distinct Client Handles, and mutating the credential
of the first URL's handle — overwriting it via `authStore.save` or clearing
it via `logout` — leaves the second URL's handle (hence its observable
token) unchanged. -/
theorem multi_instance_isolation {st : StoreState} (h : Reachable st)
    (u1 u2 : String) (i1 i2 : Nat) (hne : u1 ≠ u2)
    (h1 : lookupStore u1 st = some i1) (h2 : lookupStore u2 st = some i2) :
    i1 ≠ i2
    ∧ (∀ (token : String) (rec : Option AuthRecord),
        (authSave st i1 token rec).auth i2 = st.auth i2)
    ∧ (authClear st i1).auth i2 = st.auth i2 := by
  have hwf := reachable_wf h
  have hne12 : i1 ≠ i2 := store_inj hwf h1 h2 hne
  have hne21 : i2 ≠ i1 := Ne.symm hne12
  refine ⟨hne12, ?_, ?_⟩
  · intro token rec
    simp [authSave, hne21]
  · simp [authClear, hne21]

/-- A two-handle state built by resolving two distinct URLs from the empty
state. -/
def stTwo : StoreState :=
  (getOrCreateClient cfg0 (some "http://b")
    ((getOrCreateClient cfg0 (some "http://a") initState).2)).2

/-- Witness for C4 at `stTwo`: the handles of `http://a` and `http://b`
are distinct, and saving or clearing the first leaves the second's auth
store untouched. -/
theorem multi_instance_isolation_witness :
    lookupStore "http://a" stTwo = some 0
    ∧ lookupStore "http://b" stTwo = some 1
    ∧ (0 : Nat) ≠ 1
    ∧ (authSave stTwo 0 "T" none).auth 1 = stTwo.auth 1
    ∧ (authClear stTwo 0).auth 1 = stTwo.auth 1 := by
  have hr : Reachable stTwo :=
    Reachable.getOrCreate cfg0 (some "http://b")
      (Reachable.getOrCreate cfg0 (some "http://a") Reachable.init)
  have h := multi_instance_isolation hr "http://a" "http://b" 0 1
    (by decide) (by decide) (by decide)
  exact ⟨by decide, by decide, h.1, h.2.1 "T" none, h.2.2⟩

/-! ## C6: client-side admin gate -/

/-- The input refuting C6: a cached identity with `isAdmin = false` whose
collection of origin is the superusers collection (as produced by
`authenticate_user` against `_superusers`) slips through the gate's
`collectionName === "_superusers" || isAdmin` disjunction. -/
def superNonAdminAuth : AuthStore :=
  { token := "tok", record := some { collectionName := "_superusers", isAdmin := false } }

/-- A schema that passes client-side validation. -/
def validSchema : CollectionSchema :=
  { name := "posts", type := "base", schema := some []
    listRule := none, viewRule := none, createRule := none
    updateRule := none, deleteRule := none, options := none }

/-- C6 counterexample: with a cached identity whose administrator flag is
`false` but whose collection is `_superusers`, collection creation does NOT
fail with `FORBIDDEN` — the backend call is issued. -/
theorem collection_gate_superuser_bypass :
    superNonAdminAuth.record
      = some { collectionName := "_superusers", isAdmin := false }
    ∧ createCollection superNonAdminAuth validSchema = .backend
    ∧ backendCalled (createCollection superNonAdminAuth validSchema) = true :=
  ⟨rfl, by decide, by decide⟩

/-- C6 amended: for a handle whose cached identity has `administrator =
false` AND whose collection of origin is not the reserved `_superusers`
collection, every collection create/update/delete fails immediately with
the `FORBIDDEN` classification (status 403) and no backend call is made. -/
theorem collection_gate_forbidden (a : AuthStore) (r : AuthRecord)
    (s : CollectionSchema) (u : CollectionUpdate)
    (hr : a.record = some r) (hadm : r.isAdmin = false)
    (hcol : r.collectionName ≠ "_superusers") :
    isAdminAuthenticated a = false
    ∧ createCollection a s = .forbidden "FORBIDDEN" 403
    ∧ updateCollection a u = .forbidden "FORBIDDEN" 403
    ∧ deleteCollection a = .forbidden "FORBIDDEN" 403
    ∧ backendCalled (createCollection a s) = false
    ∧ backendCalled (updateCollection a u) = false
    ∧ backendCalled (deleteCollection a) = false := by
  have hgate : isAdminAuthenticated a = false := by
    unfold isAdminAuthenticated
    by_cases htok : a.token = ""
    · rw [if_pos htok]
    · rw [if_neg htok, hr]
      simp [hadm, hcol]
  refine ⟨hgate, ?_, ?_, ?_, ?_, ?_, ?_⟩ <;>
    simp [createCollection, updateCollection, deleteCollection, backendCalled, hgate]

/-- An ordinary application-user identity. -/
def nonAdminAuth : AuthStore :=
  { token := "tok", record := some { collectionName := "users", isAdmin := false } }

/-- The empty partial update. -/
def emptyUpdate : CollectionUpdate := { name := none, type := none, schema := none }

/-- Witness for C6's amended theorem: a `users`-collection identity is
rejected with `FORBIDDEN` on all three mutations, without a backend call. -/
theorem collection_gate_forbidden_witness :
    createCollection nonAdminAuth validSchema = .forbidden "FORBIDDEN" 403
    ∧ updateCollection nonAdminAuth emptyUpdate = .forbidden "FORBIDDEN" 403
    ∧ deleteCollection nonAdminAuth = .forbidden "FORBIDDEN" 403
    ∧ backendCalled (createCollection nonAdminAuth validSchema) = false :=
  ⟨(collection_gate_forbidden nonAdminAuth _ validSchema emptyUpdate rfl rfl (by decide)).2.1,
   (collection_gate_forbidden nonAdminAuth _ validSchema emptyUpdate rfl rfl (by decide)).2.2.1,
   (collection_gate_forbidden nonAdminAuth _ validSchema emptyUpdate rfl rfl (by decide)).2.2.2.1,
   (collection_gate_forbidden nonAdminAuth _ validSchema emptyUpdate rfl rfl (by decide)).2.2.2.2.1⟩

/-! ## C5: schema validation collects every violation -/

/-- Helper: every per-field violation of the field at position `i` appears
in the output of the validation loop, whatever was seen before. -/
lemma validateFieldsAux_field_mem (fields : List SchemaField) (index : Nat)
    (seen : List String) (i : Nat) (hi : i < fields.length)
    (e : FieldValidationError)
    (he : e ∈ validateSchemaField (fields.get ⟨i, hi⟩) (index + i)) :
    e ∈ validateFieldsAux fields index seen := by
  induction fields generalizing index seen i with
  | nil => exact absurd hi (Nat.not_lt_zero i)
  | cons f rest ih =>
    unfold validateFieldsAux
    cases i with
    | zero =>
      simp only [List.get, Nat.add_zero] at he
      exact List.mem_append_left _ (List.mem_append_left _ he)
    | succ j =>
      apply List.mem_append_right
      have hj : j < rest.length := Nat.lt_of_succ_lt_succ hi
      apply ih (index + 1) _ j hj
      have harith : index + 1 + j = index + (j + 1) := by omega
      rw [harith]
      exact he

/-- Helper: once a (non-empty) field name has been seen, any later
occurrence of it produces the duplicate entry for its position. -/
lemma validateFieldsAux_dup_of_seen (fields : List SchemaField) (index : Nat)
    (seen : List String) (j : Nat) (hj : j < fields.length) (name : String)
    (hname : (fields.get ⟨j, hj⟩).name = name) (hne : name ≠ "")
    (hseen : name ∈ seen) :
    duplicateFieldError (index + j) name ∈ validateFieldsAux fields index seen := by
  induction fields generalizing index seen j with
  | nil => exact absurd hj (Nat.not_lt_zero j)
  | cons f rest ih =>
    unfold validateFieldsAux
    cases j with
    | zero =>
      simp only [List.get] at hname
      subst hname
      apply List.mem_append_left
      apply List.mem_append_right
      rw [if_pos (by simp [hne, hseen])]
      simp [Nat.add_zero]
    | succ k =>
      apply List.mem_append_right
      have hk : k < rest.length := Nat.lt_of_succ_lt_succ hj
      have harith : index + (k + 1) = index + 1 + k := by omega
      rw [harith]
      apply ih (index + 1) _ k hk hname
      by_cases hf : f.name != ""
      · rw [if_pos hf]
        exact List.mem_cons_of_mem _ hseen
      · rw [if_neg hf]
        exact hseen

/-- Helper: a duplicated non-empty field name is reported at the position
of its later occurrence. -/
lemma validateFieldsAux_dup (fields : List SchemaField) (index : Nat)
    (seen : List String) (i j : Nat) (hij : i < j) (hj : j < fields.length)
    (hname : (fields.get ⟨i, Nat.lt_trans hij hj⟩).name = (fields.get ⟨j, hj⟩).name)
    (hne : (fields.get ⟨j, hj⟩).name ≠ "") :
    duplicateFieldError (index + j) (fields.get ⟨j, hj⟩).name
      ∈ validateFieldsAux fields index seen := by
  induction fields generalizing index seen i j with
  | nil => exact absurd hj (Nat.not_lt_zero j)
  | cons f rest ih =>
    cases j with
    | zero => exact absurd hij (Nat.not_lt_zero i)
    | succ k =>
      have hk : k < rest.length := Nat.lt_of_succ_lt_succ hj
      cases i with
      | zero =>
        -- the first occurrence is `f` itself: its name enters `seen`
        unfold validateFieldsAux
        apply List.mem_append_right
        have hfname : f.name = (rest.get ⟨k, hk⟩).name := hname
        have hfne : f.name ≠ "" := by rw [hfname]; exact hne
        have harith : index + (k + 1) = index + 1 + k := by omega
        rw [harith]
        apply validateFieldsAux_dup_of_seen rest (index + 1) _ k hk _ rfl hne
        rw [if_pos (by simp [hfne])]
        rw [← hfname]
        exact List.mem_cons_self _ _
      | succ i' =>
        unfold validateFieldsAux
        apply List.mem_append_right
        have hik : i' < k := Nat.lt_of_succ_lt_succ hij
        have harith : index + (k + 1) = index + 1 + k := by omega
        rw [harith]
        exact ih (index + 1) _ i' k hik hk hname hne

/-- C5: client-side collection-schema validation reports every violation
in one pass — every name violation, the type violation, every per-field
violation and every duplicate-name violation all appear in the single
result list — and when any violation exists (the gate having passed),
`createCollection` fails with one `VALIDATION_ERROR` envelope carrying
exactly that list, before any backend call. -/
theorem schema_validation_completeness (s : CollectionSchema) (a : AuthStore) :
    (∀ e ∈ validateCollectionName s.name, e ∈ validateCollectionSchema s)
    ∧ ((s.type = "" ∨ (["base", "auth", "view"].contains s.type) = false) →
        { field := "type", code := "invalid_type"
          message := "Collection type must be \x27base\x27, \x27auth\x27, or \x27view\x27" }
          ∈ validateCollectionSchema s)
    ∧ (s.type ≠ "view" → ∀ fields, s.schema = some fields →
        (∀ (i : Nat) (hi : i < fields.length),
          ∀ e ∈ validateSchemaField (fields.get ⟨i, hi⟩) i,
            e ∈ validateCollectionSchema s)
        ∧ (∀ (i j : Nat) (hij : i < j) (hj : j < fields.length),
            (fields.get ⟨i, Nat.lt_trans hij hj⟩).name = (fields.get ⟨j, hj⟩).name →
            (fields.get ⟨j, hj⟩).name ≠ "" →
            duplicateFieldError j (fields.get ⟨j, hj⟩).name
              ∈ validateCollectionSchema s))
    ∧ (isAdminAuthenticated a = true → validateCollectionSchema s ≠ [] →
        createCollection a s =
          .invalid (createValidationError (validateCollectionSchema s)
            (some "Invalid collection schema"))
        ∧ backendCalled (createCollection a s) = false) := by
  refine ⟨?_, ?_, ?_, ?_⟩
  · intro e he
    exact List.mem_append_left _ (List.mem_append_left _ he)
  · intro hty
    apply List.mem_append_left
    apply List.mem_append_right
    rw [if_pos]
    · exact List.mem_singleton.2 rfl
    · rcases hty with h | h
      · simp [h]
      · simp only [h, Bool.not_false, Bool.or_true]
  · intro hview fields hs
    have hC : validateCollectionSchema s
        = (validateCollectionName s.name
            ++ (if s.type = "" || !(["base", "auth", "view"].contains s.type) then
              [{ field := "type", code := "invalid_type"
                 message := "Collection type must be \x27base\x27, \x27auth\x27, or \x27view\x27" }] else []))
          ++ validateFieldsAux fields 0 [] := by
      unfold validateCollectionSchema
      rw [if_neg hview, hs]
    constructor
    · intro i hi e he
      rw [hC]
      apply List.mem_append_right
      apply validateFieldsAux_field_mem fields 0 [] i hi e
      rw [Nat.zero_add]
      exact he
    · intro i j hij hj hname hne
      rw [hC]
      apply List.mem_append_right
      have := validateFieldsAux_dup fields 0 [] i j hij hj hname hne
      rw [Nat.zero_add] at this
      exact this
  · intro hgate herrs
    have h1 : createCollection a s =
        .invalid (createValidationError (validateCollectionSchema s)
          (some "Invalid collection schema")) := by
      unfold createCollection
      rw [hgate]
      simp only [Bool.not_true, Bool.false_eq_true, if_false]
      rw [if_pos herrs]
    exact ⟨h1, by rw [h1]; rfl⟩

/-- A schema with three independent violations: a malformed name, a
disallowed field type at index 0, and a duplicate field name at index 1. -/
def badSchema : CollectionSchema :=
  { name := "1x", type := "base"
    schema := some
      [{ name := "a", type := "badtype", required := true, options := none },
       { name := "a", type := "text", required := true, options := none }]
    listRule := none, viewRule := none, createRule := none
    updateRule := none, deleteRule := none, options := none }

/-- A bare admin token (no cached record): passes the admin heuristic. -/
def bareAdminAuth : AuthStore := { token := "tok", record := none }

/-- Witness for C5 at `badSchema`: the name violation, the field-type
violation and the duplicate-name violation all appear in the one result,
and creation fails before the backend with that full list. -/
theorem schema_validation_completeness_witness :
    { field := "name", code := "invalid_format"
      message := "Collection name must start with a letter and contain only letters, numbers, and underscores" }
      ∈ validateCollectionSchema badSchema
    ∧ { field := "schema[0].type", code := "invalid_type"
        message := "Invalid field type \x27badtype\x27. Valid types: text, number, bool, email, url, date, select, file, relation, json, editor, autodate" }
        ∈ validateCollectionSchema badSchema
    ∧ duplicateFieldError 1 "a" ∈ validateCollectionSchema badSchema
    ∧ backendCalled (createCollection bareAdminAuth badSchema) = false := by
  have h := schema_validation_completeness badSchema bareAdminAuth
  refine ⟨h.1 _ (by decide), ?_, ?_, (h.2.2.2 (by decide) (by decide)).2⟩
  · exact (h.2.2.1 (by decide) _ rfl).1 0 (by decide) _ (by decide)
  · exact (h.2.2.1 (by decide) _ rfl).2 0 1 (by decide) (by decide) (by decide) (by decide)

end PbMcp
